import Mathlib

/-
Verification development for the hytale-launcher-archives repository.

The repository is a set of Node.js scripts that poll vendor endpoints for
launcher build manifests, download platform artifacts, verify SHA-256
digests, optionally extract and run the launcher to harvest runtime files
(with a sensitive-data exclusion filter), and commit the results to git.

This file gives a shallow embedding of the functions the claims are about:

- copyDirectoryWithFilters (auto-download-service.js lines 707-755 and the
  identical copy in run-latest-build.js lines 78-123), as a pure function
  on a tree of directory entries, returning the copied/excluded counts,
  the list of filesystem operations performed, and the destination tree;
- the per-artifact download/verify step inside processEndpoint
  (auto-download-service.js lines 369-405) together with calculateSHA256
  (lines 189-194), with the hex digest the crypto library returns for the
  downloaded bytes abstracted as an input;
- the version-directory discovery step of processEndpoint
  (auto-download-service.js lines 307-349), over an abstract store of
  existing directory names;
- downloadFile (auto-download-service.js lines 155-186) as a function of
  the HTTP outcome;
- gitAdd / gitCommit / gitPush / gitAutoCommit (auto-download-service.js
  lines 758-829) and commitToGit (archive.js lines 452-504) as command
  traces over an abstract git state;
- the run-and-probe phase of extractAndRunLauncher
  (run-latest-build.js lines 256-332) as an event trace.

Strings are modelled as lists of characters so that all comparisons reduce
in the kernel.
-/

/-- A file or directory name, or a relative path: a list of characters,
mirroring a JavaScript string. -/
abbrev Name := List Char

/-- Convert a Lean string literal to the Name representation. -/
def str (s : String) : Name := s.data

/-- JavaScript String.prototype.toLowerCase, character by character. -/
def lowerName (s : Name) : Name := s.map Char.toLower

/-- Substring test: does p occur contiguously inside s?  Mirrors what a
regular expression of the form dot-star p dot-star tests. -/
def containsSub (s p : Name) : Bool :=
  match s with
  | [] => p.isEmpty
  | _ :: t => p.isPrefixOf s || containsSub t p

/-- Case-insensitive substring test, as a JavaScript regex with the i flag
and no anchors behaves. -/
def subCI (p s : Name) : Bool := containsSub (lowerName s) (lowerName p)

/-- Case-insensitive suffix test, as a JavaScript regex with the i flag and
a trailing dollar anchor behaves. -/
def suffixCI (p s : Name) : Bool := (lowerName p).isSuffixOf (lowerName s)

/-- The excludePatterns array of copyDirectoryWithFilters
(auto-download-service.js lines 716-722), one Boolean test per regex, in
source order.  Each regex is case-insensitive; the dollar-anchored ones are
suffix tests and the rest are substring tests. -/
def excludePatterns : List (Name → Bool) :=
  [ fun s => suffixCI (str "account.dat") s
  , fun s => subCI (str "account.") s
  , fun s => subCI (str "account") s
  , fun s => subCI (str "auth") s
  , fun s => subCI (str "token") s
  , fun s => subCI (str "session") s
  , fun s => subCI (str "cookie") s
  , fun s => subCI (str "password") s
  , fun s => subCI (str "login") s
  , fun s => subCI (str "credential") s
  , fun s => subCI (str "profile") s
  , fun s => subCI (str "user") s
  , fun s => suffixCI (str "cookies") s
  , fun s => suffixCI (str "login data") s
  , fun s => suffixCI (str "web data") s
  , fun s => suffixCI (str "history") s ]

/-- The excludeDirs array of copyDirectoryWithFilters
(auto-download-service.js line 723). -/
def excludeDirs : List Name :=
  [ str "Cookies", str "Login Data", str "Web Data", str "History"
  , str "Preferences", str "Account", str "Auth", str "Session" ]

/-- The shouldExclude test of copyDirectoryWithFilters
(auto-download-service.js lines 731-732): the entry name equals a denylist
name case-insensitively, or some pattern matches the entry name or the
current relative path. -/
def shouldExclude (entryName currentRelativePath : Name) : Bool :=
  excludeDirs.any (fun dir => lowerName entryName == lowerName dir) ||
  excludePatterns.any (fun pattern =>
    pattern entryName || pattern currentRelativePath)

/-- path.join of a relative path and an entry name as used at
auto-download-service.js line 728: with the empty initial path the result
is the entry name, otherwise the two joined by a slash. -/
def joinRel (relativePath entryName : Name) : Name :=
  if relativePath = [] then entryName
  else relativePath ++ '/' :: entryName

mutual
/-- A source-tree entry as readdir with withFileTypes reports it: a file
(with a flag saying whether copyFile would succeed on it, modelling
permission or transient I/O failure) or a directory with its entries. -/
inductive FsEntry
  | file (name : Name) (ok : Bool)
  | dir (name : Name) (children : FsForest)
/-- A list of directory entries, in readdir order. -/
inductive FsForest
  | nil
  | cons (head : FsEntry) (tail : FsForest)
end

/-- The name of an entry. -/
def FsEntry.name : FsEntry → Name
  | .file n _ => n
  | .dir n _ => n

/-- An absolute path, as a list of segments. -/
abbrev FsPath := List Name

/-- A filesystem operation performed by copyDirectoryWithFilters: a
recursive mkdir of the destination, or an attempted copyFile with its
outcome. -/
inductive FsOp
  | mkdirp (p : FsPath)
  | copyFile (src dest : FsPath) (ok : Bool)
deriving DecidableEq, Repr

/-- The outcome of copyDirectoryWithFilters: the filesystem operations in
order, the copied and excluded counts it returns, and the resulting
contents of the destination directory. -/
structure CopyResult where
  ops : List FsOp
  copied : Nat
  excluded : Nat
  tree : FsForest

/-- The entry loop of copyDirectoryWithFilters (auto-download-service.js
lines 725-752) over the entries readdir returned for src.  Each entry is
skipped when shouldExclude holds for its name or relative path (one
exclusion, subtree unvisited); an included directory is processed by the
recursive copyDirectoryWithFilters call, inlined here as a mkdir of the
sub-destination followed by the loop over its children, and its counts are
added in; an included file is copied, counting one copy on success and one
exclusion when copyFile throws. -/
def copyForest : FsForest → FsPath → FsPath → Name → CopyResult
  | .nil, _, _, _ => ⟨[], 0, 0, .nil⟩
  | .cons (.file nm ok) rest, src, dest, relativePath =>
    let currentRelativePath := joinRel relativePath nm
    let r := copyForest rest src dest relativePath
    if shouldExclude nm currentRelativePath then
      ⟨r.ops, r.copied, r.excluded + 1, r.tree⟩
    else if ok then
      ⟨FsOp.copyFile (src ++ [nm]) (dest ++ [nm]) true :: r.ops,
        r.copied + 1, r.excluded, .cons (.file nm ok) r.tree⟩
    else
      ⟨FsOp.copyFile (src ++ [nm]) (dest ++ [nm]) false :: r.ops,
        r.copied, r.excluded + 1, r.tree⟩
  | .cons (.dir nm children) rest, src, dest, relativePath =>
    let currentRelativePath := joinRel relativePath nm
    let r := copyForest rest src dest relativePath
    if shouldExclude nm currentRelativePath then
      ⟨r.ops, r.copied, r.excluded + 1, r.tree⟩
    else
      let sub := copyForest children (src ++ [nm]) (dest ++ [nm])
        currentRelativePath
      ⟨FsOp.mkdirp (dest ++ [nm]) :: sub.ops ++ r.ops,
        sub.copied + r.copied, sub.excluded + r.excluded,
        .cons (.dir nm sub.tree) r.tree⟩

/-- copyDirectoryWithFilters (auto-download-service.js lines 707-755, and
identically run-latest-build.js lines 78-123): mkdir the destination
recursively, then process the entries of src.  The entries argument is the
listing readdir returns for src. -/
def copyDirectoryWithFilters (entries : FsForest)
    (src dest : FsPath) (relativePath : Name) : CopyResult :=
  let r := copyForest entries src dest relativePath
  ⟨FsOp.mkdirp dest :: r.ops, r.copied, r.excluded, r.tree⟩

example :
    (copyDirectoryWithFilters
      (.cons (FsEntry.dir (str "Cookies")
          (.cons (FsEntry.file (str "data.bin") true) .nil))
        (.cons (FsEntry.file (str "settings.json") true) .nil))
      [str "s"] [str "d"] []).copied = 1 := by decide

example :
    (copyDirectoryWithFilters
      (.cons (FsEntry.dir (str "Cookies")
          (.cons (FsEntry.file (str "data.bin") true) .nil))
        (.cons (FsEntry.file (str "settings.json") true) .nil))
      [str "s"] [str "d"] []).tree
      = .cons (FsEntry.file (str "settings.json") true) .nil := by rfl

/-- The spec-side sufficient condition of claim C2 and spec section 4.5:
the entry name equals a denylist name case-insensitively, or the name or
relative path contains one of ten listed substrings case-insensitively. -/
def claimExclusionCondition (entryName relativePath : Name) : Bool :=
  excludeDirs.any (fun dir => lowerName entryName == lowerName dir) ||
  [ str "account", str "auth", str "token", str "session", str "cookie"
  , str "password", str "login", str "credential", str "profile"
  , str "user" ].any
    (fun sub => subCI sub entryName || subCI sub relativePath)

/-- Spec-side accounting measure for the invariant of claim C6 and spec
section 4.5: each file visited at some level counts once, an excluded
entry counts once with its subtree unvisited, and an included directory
contributes the total of its children. -/
def accountedEntries : FsForest → Name → Nat
  | .nil, _ => 0
  | .cons (.file _ _) rest, relativePath =>
    1 + accountedEntries rest relativePath
  | .cons (.dir nm children) rest, relativePath =>
    (if shouldExclude nm (joinRel relativePath nm) then 1
     else accountedEntries children (joinRel relativePath nm)) +
    accountedEntries rest relativePath

/-- All top level entries of the forest are rejected by the filter, at the
given relative path. -/
def allEntriesExcluded : FsForest → Name → Bool
  | .nil, _ => true
  | .cons e rest, relativePath =>
    shouldExclude e.name (joinRel relativePath e.name) &&
    allEntriesExcluded rest relativePath

/-- calculateSHA256 (auto-download-service.js lines 189-194): reads the
file, feeds it to the SHA-256 hash and returns the lowercased hex digest.
The hex digest the crypto library produces for the file bytes is abstract
here and passed in as rawHexDigest; the function lowercases it, as
digest followed by toLowerCase does. -/
def calculateSHA256 (rawHexDigest : Name) : Name := lowerName rawHexDigest

/-- On-disk outcome of handling one artifact inside processEndpoint: is
the artifact file still present, were the url.txt and sha256.txt metadata
files written, and was the artifact counted as verified (toward
downloadedCount and the success log). -/
structure ArtifactOutcome where
  fileOnDisk : Bool
  urlTxtWritten : Bool
  sha256TxtWritten : Bool
  verified : Bool
deriving DecidableEq, Repr

/-- The per-artifact body of processEndpoint (auto-download-service.js
lines 369-405): download the file (downloadFile deletes its partial file
and throws on failure, and the catch skips verification and metadata);
on download success compare calculateSHA256 of the file against the
lowercased manifest digest, deleting the file on mismatch; then write
url.txt and sha256.txt either way. -/
def processArtifact (downloadOk : Bool)
    (rawHexDigest sha256Expected : Name) : ArtifactOutcome :=
  if downloadOk then
    let fileHash := calculateSHA256 rawHexDigest
    if fileHash == lowerName sha256Expected then
      ⟨true, true, true, true⟩
    else
      ⟨false, true, true, false⟩
  else
    ⟨false, false, false, false⟩

/-- Result of the version-directory discovery step of processEndpoint:
the directory chosen, whether the run proceeds to create it and download
(downloaded = true) or skips (downloaded = false), and the archive
directory contents afterwards. -/
structure VersionCheckResult where
  versionDir : Name
  downloaded : Bool
  store : List Name
deriving DecidableEq, Repr

/-- The fullVersion string of processEndpoint line 313: version, a dash,
then the channel name. -/
def fullVersionOf (version channel : Name) : Name :=
  version ++ '-' :: channel

/-- The timestamped directory name of processEndpoint line 314:
fullVersion, a dash, then the discovery timestamp. -/
def timestampedDirName (fullVersion downloadTimestamp : Name) : Name :=
  fullVersion ++ '-' :: downloadTimestamp

/-- The version-directory discovery step of processEndpoint
(auto-download-service.js lines 307-349), over the store of directory
names existing under the archive root.  The legacy un-timestamped name is
preferred when it exists; then the chosen directory is probed (the source
repeats this probe twice with the same outcome) and, if present, the run
returns downloaded false; otherwise the directory is created and the run
proceeds to the downloads. -/
def processEndpointVersionCheck (store : List Name)
    (version channel downloadTimestamp : Name) : VersionCheckResult :=
  let fullVersion := fullVersionOf version channel
  let versionDirName := timestampedDirName fullVersion downloadTimestamp
  let versionDir := if fullVersion ∈ store then fullVersion
    else versionDirName
  if versionDir ∈ store then ⟨versionDir, false, store⟩
  else ⟨versionDir, true, versionDir :: store⟩

/-- What the HTTP layer does for one download request: a response with a
status code and an indication whether streaming the body to the file
completes, or a connection error. -/
inductive HttpEvent
  | response (statusCode : Nat) (streamOk : Bool)
  | connectionFailed
deriving DecidableEq, Repr

/-- The failure downloadFile rejects with. -/
inductive DownloadError
  | httpStatus (statusCode : Nat)
  | connectionError
  | streamError
deriving DecidableEq, Repr

/-- Outcome of downloadFile: the rejection reason if any (none means the
promise resolved), whether a file remains at the destination path, and
how many HTTP requests were issued. -/
structure DownloadOutcome where
  resultError : Option DownloadError
  fileAtDest : Bool
  httpRequests : Nat
deriving DecidableEq, Repr

/-- downloadFile (auto-download-service.js lines 155-186): opens a write
stream at the destination, issues one GET; on a status other than 200 it
closes and unlinks the file and rejects; on a file stream error or a
request error it closes and unlinks and rejects; on finish it resolves.
No retry exists in the function. -/
def downloadFile (ev : HttpEvent) : DownloadOutcome :=
  match ev with
  | .connectionFailed => ⟨some DownloadError.connectionError, false, 1⟩
  | .response statusCode streamOk =>
    if statusCode ≠ 200 then
      ⟨some (DownloadError.httpStatus statusCode), false, 1⟩
    else if streamOk then ⟨none, true, 1⟩
    else ⟨some DownloadError.streamError, false, 1⟩

/-- Effect of gitAdd: the paths git add is invoked on, and how many log
lines reporting a discarded unsafe path were emitted. -/
structure GitAddEffect where
  stagedPaths : List Name
  unsafeDiscardLogs : Nat
deriving DecidableEq, Repr

/-- gitAdd (auto-download-service.js lines 758-769): quotes each given
path as-is and runs git add on all of them; the only log line is the INFO
file count.  No path is inspected, filtered, or reported as unsafe. -/
def gitAdd (files : List Name) : GitAddEffect :=
  { stagedPaths := files, unsafeDiscardLogs := 0 }

/-- A relative path resolves outside the repository root when it starts
with two dots, the test the source itself uses at
auto-download-service.js line 694. -/
def resolvesOutsideRepo (p : Name) : Bool :=
  (str "..").isPrefixOf p

/-- The path guard of archiveLinuxRuntimeState (auto-download-service.js
lines 692-697): the runtime-archive directory, made relative to the repo
root, is pushed onto the list for git only when it is non-empty and does
not start with two dots; nothing is logged when it is dropped. -/
def runtimeArchiveGitPaths (relativeRuntimePath : Name) : List Name :=
  if !relativeRuntimePath.isEmpty &&
      !(str "..").isPrefixOf relativeRuntimePath then
    [relativeRuntimePath]
  else []

/-- A git command the publishing code runs, abstracted. -/
inductive GitCmd
  | add (files : List Name)
  | addArchiveDirs
  | resetNonArchive
  | addReadme
  | diffStagedCheck
  | commitCmd (message : Name)
  | push
  | pushMain
  | pushMaster
deriving DecidableEq, Repr

/-- Abstract git repository state as gitAutoCommit observes it. -/
structure GitEnv where
  gitEnabled : Bool
  nothingToCommit : Bool
  commitOtherError : Bool
  pushOk : Bool
deriving DecidableEq, Repr

/-- Outcome of gitAutoCommit: whether a commit was created, whether the
push succeeded, whether its catch logged a warning, and the git commands
run, in order. -/
structure PublishOutcome where
  committed : Bool
  pushed : Bool
  warned : Bool
  cmds : List GitCmd
deriving DecidableEq, Repr

/-- gitAutoCommit (auto-download-service.js lines 801-829) with gitAdd
(758-769), gitCommit (771-787) and gitPush (789-799) inlined: add the
files, run git commit; when commit fails with nothing-to-commit,
gitCommit logs INFO and returns false, so no push is attempted and no
warning is raised; when commit fails otherwise the catch of gitAutoCommit
logs a warning; when commit succeeds, push is attempted, and a push
failure is caught as a warning while the local commit persists. -/
def gitAutoCommit (env : GitEnv) (files : List Name)
    (message : Name) : PublishOutcome :=
  if !env.gitEnabled then ⟨false, false, false, []⟩
  else if env.nothingToCommit then
    ⟨false, false, false, [GitCmd.add files, GitCmd.commitCmd message]⟩
  else if env.commitOtherError then
    ⟨false, false, true, [GitCmd.add files, GitCmd.commitCmd message]⟩
  else if env.pushOk then
    ⟨true, true, false,
      [GitCmd.add files, GitCmd.commitCmd message, GitCmd.push]⟩
  else
    ⟨true, false, true,
      [GitCmd.add files, GitCmd.commitCmd message, GitCmd.push]⟩

/-- Abstract git repository state as commitToGit observes it. -/
structure CommitToGitEnv where
  stagedDiffEmpty : Bool
  pushMainOk : Bool
  pushMasterOk : Bool
deriving DecidableEq, Repr

/-- commitToGit (archive.js lines 452-504): stage the archive
directories, reset code and log patterns, re-add the readme, then check
git diff staged; when the staged diff is empty it logs and returns false
without committing or pushing; otherwise it commits with a timestamped
message and pushes to main, falling back to master, returning whether a
push succeeded. -/
def commitToGit (env : CommitToGitEnv) (timestamp : Name) :
    Bool × List GitCmd :=
  let staging := [GitCmd.addArchiveDirs, GitCmd.resetNonArchive,
    GitCmd.addReadme, GitCmd.diffStagedCheck]
  if env.stagedDiffEmpty then (false, staging)
  else
    let committed := staging ++
      [GitCmd.commitCmd (str "Auto-archive: " ++ timestamp)]
    if env.pushMainOk then (true, committed ++ [GitCmd.pushMain])
    else if env.pushMasterOk then
      (true, committed ++ [GitCmd.pushMain, GitCmd.pushMaster])
    else (false, committed ++ [GitCmd.pushMain, GitCmd.pushMaster])

/-- JavaScript String.prototype.trim on the error log content. -/
def trimWs (s : Name) : Name :=
  ((s.dropWhile Char.isWhitespace).reverse.dropWhile
    Char.isWhitespace).reverse

/-- One step the launcher-running phase of extractAndRunLauncher
performs, in order. -/
inductive HarvestEvent
  | graceSleep (ms : Nat)
  | probeAlive
  | logStarted
  | logCrashWarn
  | logErrorDetail (detail : Name)
  | mainWait (ms : Nat)
  | dataDirProbe
  | copyFiltered
  | writeMetadata
  | killLauncher
deriving DecidableEq, Repr

/-- The environment the launcher-running phase observes: whether the
child process is still alive when probed after the grace sleep, the
content of the captured error log if it can be read, and whether a
candidate data directory exists for harvesting. -/
structure LaunchEnv where
  aliveAfterGrace : Bool
  errorLog : Option Name
  dataDirFound : Bool
deriving DecidableEq, Repr

/-- The run phase of extractAndRunLauncher (run-latest-build.js lines
256-332), from launching the executable on: sleep 2000 ms, probe the
process with signal zero; when the probe throws, log the crash warning
and, when the captured error log reads back non-blank, log its first 500
characters, then return false; when the process is alive, log, wait the
configured time, probe the data directories and, when one is found, copy
with filters and write the metadata record, then kill the launcher and
return true. -/
def runLauncherPhase (env : LaunchEnv) (launcherWaitTime : Nat) :
    Bool × List HarvestEvent :=
  let pre := [HarvestEvent.graceSleep 2000, HarvestEvent.probeAlive]
  if env.aliveAfterGrace then
    (true,
      pre ++
      [HarvestEvent.logStarted, HarvestEvent.mainWait launcherWaitTime,
        HarvestEvent.dataDirProbe] ++
      (if env.dataDirFound then
        [HarvestEvent.copyFiltered, HarvestEvent.writeMetadata]
       else []) ++
      [HarvestEvent.killLauncher])
  else
    (false,
      pre ++ [HarvestEvent.logCrashWarn] ++
      (match env.errorLog with
       | some content =>
         if trimWs content ≠ [] then
           [HarvestEvent.logErrorDetail (content.take 500)]
         else []
       | none => []))

/-- C1: an artifact processed by processEndpoint is retained on disk
after the call exactly when the download succeeded and the SHA-256 hex
digest computed from its bytes equals the manifest digest under
case-insensitive comparison; in particular, on a mismatch the file is
deleted and does not exist after the call. -/
theorem processArtifact_retention (downloadOk : Bool)
    (rawHexDigest sha256Expected : Name) :
    (processArtifact downloadOk rawHexDigest sha256Expected).fileOnDisk =
      (downloadOk &&
        (calculateSHA256 rawHexDigest == lowerName sha256Expected)) := by
  cases downloadOk with
  | false => simp [processArtifact]
  | true =>
    cases h : calculateSHA256 rawHexDigest == lowerName sha256Expected with
    | false => simp [processArtifact, h]
    | true => simp [processArtifact, h]

/-- Instance of processArtifact_retention at a concrete mismatching
digest: the artifact file does not remain on disk. -/
theorem processArtifact_retention_witness :
    (processArtifact true (str "ab12") (str "CD34")).fileOnDisk =
      (true && (calculateSHA256 (str "ab12") == lowerName (str "CD34"))) :=
  processArtifact_retention true (str "ab12") (str "CD34")

/-- C9: when the computed digest mismatches the declared one, the
integrity-failure path of processEndpoint deletes the artifact file but
still writes the url.txt and sha256.txt metadata files into the platform
directory, and the artifact is not counted as verified. -/
theorem processArtifact_mismatch_metadata (rawHexDigest sha256Expected : Name)
    (h : (calculateSHA256 rawHexDigest == lowerName sha256Expected) = false) :
    processArtifact true rawHexDigest sha256Expected =
      { fileOnDisk := false, urlTxtWritten := true,
        sha256TxtWritten := true, verified := false } := by
  simp [processArtifact, h]

/-- Instance of processArtifact_mismatch_metadata at a concrete
mismatching digest. -/
theorem processArtifact_mismatch_metadata_witness :
    (calculateSHA256 (str "ab12") == lowerName (str "CD34")) = false ∧
    processArtifact true (str "ab12") (str "CD34") =
      { fileOnDisk := false, urlTxtWritten := true,
        sha256TxtWritten := true, verified := false } :=
  ⟨by decide, processArtifact_mismatch_metadata (str "ab12") (str "CD34")
    (by decide)⟩

/-- C8: downloadFile resolves exactly when the response has status 200
and the body streams to completion; a file remains at the destination
exactly when it resolves, so no partial file survives a non-200 status or
a stream or connection error; and exactly one HTTP request is issued, so
there is no internal retry. -/
theorem downloadFile_failure_cleanup (ev : HttpEvent) :
    ((downloadFile ev).resultError = none ↔
      ev = HttpEvent.response 200 true) ∧
    ((downloadFile ev).fileAtDest = true ↔
      (downloadFile ev).resultError = none) ∧
    (downloadFile ev).httpRequests = 1 := by
  cases ev with
  | connectionFailed => simp [downloadFile]
  | response statusCode streamOk =>
    by_cases h : statusCode = 200
    · subst h
      cases streamOk <;> simp [downloadFile]
    · cases streamOk <;> simp [downloadFile, h]

/-- Instance of downloadFile_failure_cleanup at a 404 response: the call
fails and no file remains. -/
theorem downloadFile_failure_cleanup_witness :
    ((downloadFile (HttpEvent.response 404 true)).resultError = none ↔
      HttpEvent.response 404 true = HttpEvent.response 200 true) ∧
    ((downloadFile (HttpEvent.response 404 true)).fileAtDest = true ↔
      (downloadFile (HttpEvent.response 404 true)).resultError = none) ∧
    (downloadFile (HttpEvent.response 404 true)).httpRequests = 1 :=
  downloadFile_failure_cleanup (HttpEvent.response 404 true)

/-- Counterexample to C3: two runs of the version-discovery step of
processEndpoint with the same version and channel but different discovery
timestamps, starting from an empty archive, both proceed to download, and
two version directories exist afterwards. -/
theorem versionCheck_rerun_redownloads :
    (processEndpointVersionCheck
      (processEndpointVersionCheck [] (str "1.0") (str "release")
        (str "T1")).store
      (str "1.0") (str "release") (str "T2")).downloaded = true ∧
    (processEndpointVersionCheck
      (processEndpointVersionCheck [] (str "1.0") (str "release")
        (str "T1")).store
      (str "1.0") (str "release") (str "T2")).store.length = 2 := by
  decide

/-- A full version name is never equal to its own timestamped extension:
the lengths differ. -/
theorem fullVersion_ne_timestamped (fullVersion downloadTimestamp : Name) :
    fullVersion ≠ timestampedDirName fullVersion downloadTimestamp := by
  intro h
  have := congrArg List.length h
  simp [timestampedDirName] at this

/-- C3 amended: the second run of the version-discovery step skips
(downloaded false, no downloads, store unchanged) when the legacy
un-timestamped directory for the full version already exists; starting
from an empty archive, a second run with the same version and channel
skips exactly when its discovery timestamp equals the first run's, and
otherwise re-downloads into a new timestamped directory. -/
theorem versionCheck_idempotency_amended :
    (∀ (store : List Name) (version channel downloadTimestamp : Name),
      fullVersionOf version channel ∈ store →
      processEndpointVersionCheck store version channel downloadTimestamp =
        ⟨fullVersionOf version channel, false, store⟩) ∧
    (∀ (version channel ts1 ts2 : Name),
      ((processEndpointVersionCheck
          (processEndpointVersionCheck [] version channel ts1).store
          version channel ts2).downloaded = false ↔ ts2 = ts1)) := by
  constructor
  · intro store version channel downloadTimestamp h
    simp [processEndpointVersionCheck, h]
  · intro version channel ts1 ts2
    have h1 : (processEndpointVersionCheck [] version channel ts1).store =
        [timestampedDirName (fullVersionOf version channel) ts1] := by
      simp [processEndpointVersionCheck]
    rw [h1]
    have hne := fullVersion_ne_timestamped (fullVersionOf version channel) ts1
    by_cases h2 : ts2 = ts1
    · subst h2
      simp [processEndpointVersionCheck, hne]
    · have hne2 : timestampedDirName (fullVersionOf version channel) ts2 ≠
          timestampedDirName (fullVersionOf version channel) ts1 := by
        intro h
        exact h2 (by simpa [timestampedDirName] using h)
      simp [processEndpointVersionCheck, hne, hne2, h2]

/-- Instance of versionCheck_idempotency_amended: with the legacy
directory 1.0-release already present, the discovery step skips and
leaves the store unchanged. -/
theorem versionCheck_idempotency_amended_witness :
    fullVersionOf (str "1.0") (str "release") ∈ [str "1.0-release"] ∧
    processEndpointVersionCheck [str "1.0-release"] (str "1.0")
        (str "release") (str "T9") =
      ⟨fullVersionOf (str "1.0") (str "release") , false,
        [str "1.0-release"]⟩ :=
  ⟨by decide, versionCheck_idempotency_amended.1 [str "1.0-release"]
    (str "1.0") (str "release") (str "T9") (by decide)⟩

/-- Counterexample to C4: gitAdd, handed the path ../outside which
resolves outside the repository root, stages it unchanged and logs no
discarded unsafe path. -/
theorem gitAdd_stages_outside_path :
    resolvesOutsideRepo (str "../outside") = true ∧
    (gitAdd [str "../outside"]).stagedPaths = [str "../outside"] ∧
    (gitAdd [str "../outside"]).unsafeDiscardLogs = 0 := by
  decide

/-- C4 amended: gitAdd itself stages exactly the paths it is given with
no filtering and never logs a discarded unsafe path; the only
path-traversal guard in the pipeline is in archiveLinuxRuntimeState,
which adds the runtime-archive directory to the paths for git only when
its repo-relative form is non-empty and does not start with two dots, and
that silent drop is not logged either. -/
theorem gitAdd_guard_amended :
    (∀ (files : List Name),
      (gitAdd files).stagedPaths = files ∧
      (gitAdd files).unsafeDiscardLogs = 0) ∧
    (∀ (relativeRuntimePath p : Name),
      p ∈ runtimeArchiveGitPaths relativeRuntimePath →
      resolvesOutsideRepo p = false ∧ p ≠ []) := by
  constructor
  · intro files
    exact ⟨rfl, rfl⟩
  · intro relativeRuntimePath p hp
    unfold runtimeArchiveGitPaths at hp
    by_cases hc : (!relativeRuntimePath.isEmpty &&
        !(str "..").isPrefixOf relativeRuntimePath) = true
    · rw [if_pos hc] at hp
      simp only [List.mem_singleton] at hp
      subst hp
      simp only [Bool.and_eq_true, Bool.not_eq_true'] at hc
      refine ⟨hc.2, ?_⟩
      intro h
      subst h
      simp at hc
    · rw [if_neg hc] at hp
      simp at hp

/-- Instance of gitAdd_guard_amended: a runtime-archive path accepted by
the guard stays inside the repository root. -/
theorem gitAdd_guard_amended_witness :
    (str "runtime-archives/v1") ∈
      runtimeArchiveGitPaths (str "runtime-archives/v1") ∧
    resolvesOutsideRepo (str "runtime-archives/v1") = false ∧
    (str "runtime-archives/v1") ≠ [] :=
  ⟨by decide, gitAdd_guard_amended.2 (str "runtime-archives/v1")
    (str "runtime-archives/v1") (by decide)⟩

/-- C7: when the staged diff is empty, gitAutoCommit ends with no commit
created, no push attempted and no warning (commit outcome false false,
the command trace stopping at the failed commit), and commitToGit returns
false having run neither a commit nor a push. -/
theorem publish_noop_on_empty_diff :
    (∀ (env : GitEnv) (files : List Name) (message : Name),
      env.gitEnabled = true → env.nothingToCommit = true →
      gitAutoCommit env files message =
        { committed := false, pushed := false, warned := false,
          cmds := [GitCmd.add files, GitCmd.commitCmd message] }) ∧
    (∀ (env : CommitToGitEnv) (timestamp : Name),
      env.stagedDiffEmpty = true →
      (commitToGit env timestamp).1 = false ∧
      (∀ m, GitCmd.commitCmd m ∉ (commitToGit env timestamp).2) ∧
      GitCmd.pushMain ∉ (commitToGit env timestamp).2 ∧
      GitCmd.pushMaster ∉ (commitToGit env timestamp).2) := by
  constructor
  · intro env files message h1 h2
    simp [gitAutoCommit, h1, h2]
  · intro env timestamp h
    simp [commitToGit, h]

/-- Instance of publish_noop_on_empty_diff at a concrete environment with
an empty staged diff. -/
theorem publish_noop_on_empty_diff_witness :
    gitAutoCommit (GitEnv.mk true true false true)
      [str "versions/v1"] (str "msg") =
      PublishOutcome.mk false false false
        [GitCmd.add [str "versions/v1"], GitCmd.commitCmd (str "msg")] :=
  publish_noop_on_empty_diff.1 (GitEnv.mk true true false true)
    [str "versions/v1"] (str "msg") rfl rfl

/-- C5: when the launched process is no longer alive at the probe after
the 2 second grace sleep, the run phase returns false, performs neither
the main wait nor the data-directory probe nor the filtered copy, and,
whenever the captured error log reads back non-blank, logs its first 500
characters as the failure detail. -/
theorem launcher_crash_detection (env : LaunchEnv) (launcherWaitTime : Nat)
    (h : env.aliveAfterGrace = false) :
    (runLauncherPhase env launcherWaitTime).1 = false ∧
    (∀ ms, HarvestEvent.mainWait ms ∉
      (runLauncherPhase env launcherWaitTime).2) ∧
    HarvestEvent.dataDirProbe ∉ (runLauncherPhase env launcherWaitTime).2 ∧
    HarvestEvent.copyFiltered ∉ (runLauncherPhase env launcherWaitTime).2 ∧
    (∀ content, env.errorLog = some content → trimWs content ≠ [] →
      HarvestEvent.logErrorDetail (content.take 500) ∈
        (runLauncherPhase env launcherWaitTime).2) := by
  obtain ⟨alive, errorLog, dataDirFound⟩ := env
  simp only at h
  subst h
  refine ⟨?_, ?_, ?_, ?_, ?_⟩
  · simp [runLauncherPhase]
  · intro ms
    cases errorLog with
    | none => simp [runLauncherPhase]
    | some content =>
      by_cases hc : trimWs content = []
      · simp [runLauncherPhase, hc]
      · simp [runLauncherPhase, hc]
  · cases errorLog with
    | none => simp [runLauncherPhase]
    | some content =>
      by_cases hc : trimWs content = []
      · simp [runLauncherPhase, hc]
      · simp [runLauncherPhase, hc]
  · cases errorLog with
    | none => simp [runLauncherPhase]
    | some content =>
      by_cases hc : trimWs content = []
      · simp [runLauncherPhase, hc]
      · simp [runLauncherPhase, hc]
  · intro content hlog hne
    simp only at hlog
    subst hlog
    simp [runLauncherPhase, hne]

/-- Instance of launcher_crash_detection at a concrete crashed launch
with a non-blank error log. -/
theorem launcher_crash_detection_witness :
    (runLauncherPhase
      (LaunchEnv.mk false (some (str "boom")) true) 300000).1 = false ∧
    HarvestEvent.logErrorDetail ((str "boom").take 500) ∈
      (runLauncherPhase
        (LaunchEnv.mk false (some (str "boom")) true) 300000).2 :=
  ⟨(launcher_crash_detection
      (LaunchEnv.mk false (some (str "boom")) true) 300000 rfl).1,
   (launcher_crash_detection
      (LaunchEnv.mk false (some (str "boom")) true) 300000 rfl).2.2.2.2
     (str "boom") rfl (by decide)⟩

/-- The claim-side exclusion condition implies the test the source
applies: each of the ten substrings is one of the source patterns, and
the denylist check is shared verbatim. -/
theorem claimCond_implies_shouldExclude (entryName relativePath : Name)
    (h : claimExclusionCondition entryName relativePath = true) :
    shouldExclude entryName relativePath = true := by
  simp only [claimExclusionCondition, excludeDirs, List.any_cons,
    List.any_nil, Bool.or_eq_true, Bool.or_false] at h
  simp only [shouldExclude, excludeDirs, excludePatterns, List.any_cons,
    List.any_nil, Bool.or_eq_true, Bool.or_false]
  tauto

/-- The counts of copyForest account for every entry: each visited file
once, each excluded entry once with its subtree unvisited, with nested
counts propagating by summation. -/
theorem copyForest_accounted : ∀ (es : FsForest) (src dest : FsPath)
    (relativePath : Name),
    (copyForest es src dest relativePath).copied +
      (copyForest es src dest relativePath).excluded =
      accountedEntries es relativePath
  | .nil, _, _, _ => by simp [copyForest, accountedEntries]
  | .cons (.file nm ok) rest, src, dest, relativePath => by
    have ih := copyForest_accounted rest src dest relativePath
    by_cases h : shouldExclude nm (joinRel relativePath nm) = true
    · simp only [copyForest, accountedEntries, h, if_true]
      omega
    · simp only [Bool.not_eq_true] at h
      cases ok with
      | true =>
        simp only [copyForest, accountedEntries, h, Bool.false_eq_true,
          if_false, if_true]
        omega
      | false =>
        simp only [copyForest, accountedEntries, h, Bool.false_eq_true,
          if_false]
        omega
  | .cons (.dir nm children) rest, src, dest, relativePath => by
    have ih1 := copyForest_accounted children (src ++ [nm]) (dest ++ [nm])
      (joinRel relativePath nm)
    have ih2 := copyForest_accounted rest src dest relativePath
    by_cases h : shouldExclude nm (joinRel relativePath nm) = true
    · simp only [copyForest, accountedEntries, h, if_true]
      omega
    · simp only [Bool.not_eq_true] at h
      simp only [copyForest, accountedEntries, h, Bool.false_eq_true,
        if_false]
      omega

/-- When every top-level entry is rejected by the filter, copyForest
performs no filesystem operation, copies nothing, and leaves the
destination contents empty. -/
theorem copyForest_all_excluded : ∀ (es : FsForest) (src dest : FsPath)
    (relativePath : Name),
    allEntriesExcluded es relativePath = true →
    (copyForest es src dest relativePath).ops = [] ∧
    (copyForest es src dest relativePath).copied = 0 ∧
    (copyForest es src dest relativePath).tree = .nil
  | .nil, _, _, _, _ => by simp [copyForest]
  | .cons (.file nm ok) rest, src, dest, relativePath, h => by
    simp only [allEntriesExcluded, FsEntry.name, Bool.and_eq_true] at h
    have ih := copyForest_all_excluded rest src dest relativePath h.2
    simp only [copyForest, h.1, if_true]
    exact ih
  | .cons (.dir nm children) rest, src, dest, relativePath, h => by
    simp only [allEntriesExcluded, FsEntry.name, Bool.and_eq_true] at h
    have ih := copyForest_all_excluded rest src dest relativePath h.2
    simp only [copyForest, h.1, if_true]
    exact ih

/-- C2: on the source tree holding a directory Cookies with one file and
a file settings.json, the filtered copy produces a destination holding
only settings.json, with one copy and one exclusion; and in general any
entry whose name equals a denylist name case-insensitively, or whose name
or relative path contains one of the ten sensitive substrings
case-insensitively, is skipped together with its entire subtree, adding
exactly one exclusion and touching nothing on disk. -/
theorem harvest_filter_exclusions :
    (copyDirectoryWithFilters
      (.cons (FsEntry.dir (str "Cookies")
          (.cons (FsEntry.file (str "data.bin") true) .nil))
        (.cons (FsEntry.file (str "settings.json") true) .nil))
      [str "s"] [str "d"] [] =
      CopyResult.mk
        [FsOp.mkdirp [str "d"],
          FsOp.copyFile [str "s", str "settings.json"]
            [str "d", str "settings.json"] true]
        1 1 (.cons (FsEntry.file (str "settings.json") true) .nil)) ∧
    (∀ (e : FsEntry) (rest : FsForest) (src dest : FsPath)
      (relativePath : Name),
      claimExclusionCondition e.name (joinRel relativePath e.name) = true →
      copyForest (.cons e rest) src dest relativePath =
        CopyResult.mk (copyForest rest src dest relativePath).ops
          (copyForest rest src dest relativePath).copied
          ((copyForest rest src dest relativePath).excluded + 1)
          (copyForest rest src dest relativePath).tree) := by
  constructor
  · rfl
  · intro e rest src dest relativePath h
    have hs := claimCond_implies_shouldExclude _ _ h
    cases e with
    | file nm ok =>
      simp only [FsEntry.name] at hs
      simp [copyForest, hs]
    | dir nm children =>
      simp only [FsEntry.name] at hs
      simp [copyForest, hs]

/-- Instance of harvest_filter_exclusions: a file named token.txt is
skipped, adding one exclusion. -/
theorem harvest_filter_exclusions_witness :
    claimExclusionCondition (FsEntry.file (str "token.txt") true).name
      (joinRel [] (FsEntry.file (str "token.txt") true).name) = true ∧
    copyForest (.cons (FsEntry.file (str "token.txt") true) .nil)
        [str "s"] [str "d"] [] =
      CopyResult.mk (copyForest .nil [str "s"] [str "d"] []).ops
        (copyForest .nil [str "s"] [str "d"] []).copied
        ((copyForest .nil [str "s"] [str "d"] []).excluded + 1)
        (copyForest .nil [str "s"] [str "d"] []).tree :=
  ⟨by decide, harvest_filter_exclusions.2
    (FsEntry.file (str "token.txt") true) .nil [str "s"] [str "d"] []
    (by decide)⟩

/-- C6: the counts of the filtered copy satisfy the accounting
invariant, nested counts propagating upward by summation; an excluded
directory contributes exactly one exclusion regardless of its
descendants; and a file that fails to copy for a non-filter reason
contributes one exclusion while the rest of the copy proceeds. -/
theorem copy_accounting_invariant :
    (∀ (es : FsForest) (src dest : FsPath) (relativePath : Name),
      (copyForest es src dest relativePath).copied +
        (copyForest es src dest relativePath).excluded =
        accountedEntries es relativePath) ∧
    (∀ (nm : Name) (children rest : FsForest) (src dest : FsPath)
      (relativePath : Name),
      shouldExclude nm (joinRel relativePath nm) = true →
      copyForest (.cons (.dir nm children) rest) src dest relativePath =
        CopyResult.mk (copyForest rest src dest relativePath).ops
          (copyForest rest src dest relativePath).copied
          ((copyForest rest src dest relativePath).excluded + 1)
          (copyForest rest src dest relativePath).tree) ∧
    (∀ (nm : Name) (rest : FsForest) (src dest : FsPath)
      (relativePath : Name),
      shouldExclude nm (joinRel relativePath nm) = false →
      copyForest (.cons (.file nm false) rest) src dest relativePath =
        CopyResult.mk
          (FsOp.copyFile (src ++ [nm]) (dest ++ [nm]) false ::
            (copyForest rest src dest relativePath).ops)
          (copyForest rest src dest relativePath).copied
          ((copyForest rest src dest relativePath).excluded + 1)
          (copyForest rest src dest relativePath).tree) := by
  refine ⟨copyForest_accounted, ?_, ?_⟩
  · intro nm children rest src dest relativePath h
    simp [copyForest, h]
  · intro nm rest src dest relativePath h
    simp [copyForest, h]

/-- Instance of copy_accounting_invariant: an excluded directory with
two descendants counts as one exclusion. -/
theorem copy_accounting_invariant_witness :
    shouldExclude (str "Cookies") (joinRel [] (str "Cookies")) = true ∧
    copyForest (.cons (.dir (str "Cookies")
        (.cons (FsEntry.file (str "a") true)
          (.cons (FsEntry.file (str "b") true) .nil))) .nil)
        [str "s"] [str "d"] [] =
      CopyResult.mk (copyForest .nil [str "s"] [str "d"] []).ops
        (copyForest .nil [str "s"] [str "d"] []).copied
        ((copyForest .nil [str "s"] [str "d"] []).excluded + 1)
        (copyForest .nil [str "s"] [str "d"] []).tree :=
  ⟨by decide, copy_accounting_invariant.2.1 (str "Cookies")
    (.cons (FsEntry.file (str "a") true)
      (.cons (FsEntry.file (str "b") true) .nil)) .nil
    [str "s"] [str "d"] [] (by decide)⟩

/-- C10: the filtered copy creates the destination directory as its
first filesystem operation, before any source entry is examined; on an
empty source, and on a source whose entries are all excluded, the
destination still exists afterwards with zero files copied into it. -/
theorem copy_creates_dest_first :
    (∀ (es : FsForest) (src dest : FsPath) (relativePath : Name),
      (copyDirectoryWithFilters es src dest relativePath).ops.head? =
        some (FsOp.mkdirp dest)) ∧
    (∀ (src dest : FsPath) (relativePath : Name),
      copyDirectoryWithFilters .nil src dest relativePath =
        CopyResult.mk [FsOp.mkdirp dest] 0 0 .nil) ∧
    (∀ (es : FsForest) (src dest : FsPath) (relativePath : Name),
      allEntriesExcluded es relativePath = true →
      (copyDirectoryWithFilters es src dest relativePath).ops =
        [FsOp.mkdirp dest] ∧
      (copyDirectoryWithFilters es src dest relativePath).copied = 0 ∧
      (copyDirectoryWithFilters es src dest relativePath).tree = .nil) := by
  refine ⟨?_, ?_, ?_⟩
  · intro es src dest relativePath
    simp [copyDirectoryWithFilters]
  · intro src dest relativePath
    simp [copyDirectoryWithFilters, copyForest]
  · intro es src dest relativePath h
    have := copyForest_all_excluded es src dest relativePath h
    simp [copyDirectoryWithFilters, this.1, this.2.1, this.2.2]

/-- Instance of copy_creates_dest_first: a source holding only a Cookies
entry yields just the destination mkdir and nothing copied. -/
theorem copy_creates_dest_first_witness :
    allEntriesExcluded (.cons (FsEntry.file (str "Cookies") true) .nil)
      [] = true ∧
    (copyDirectoryWithFilters
      (.cons (FsEntry.file (str "Cookies") true) .nil)
      [str "s"] [str "d"] []).ops = [FsOp.mkdirp [str "d"]] ∧
    (copyDirectoryWithFilters
      (.cons (FsEntry.file (str "Cookies") true) .nil)
      [str "s"] [str "d"] []).copied = 0 ∧
    (copyDirectoryWithFilters
      (.cons (FsEntry.file (str "Cookies") true) .nil)
      [str "s"] [str "d"] []).tree = .nil :=
  ⟨by decide, (copy_creates_dest_first.2.2
    (.cons (FsEntry.file (str "Cookies") true) .nil)
    [str "s"] [str "d"] [] (by decide))⟩
